import Mathlib

/-!
Verification of the klaytn account-key core: the AccountKey variant model,
structural equality, the fork-gated signature-validation engine, the
signature gas rule, and the tagged binary/JSON codec.

The implementation files of package accountkey are not part of the
available sources (only their unit tests, the protocol parameters and an
unrelated API file are). Every definition below carrying a doc comment
starting with Modelled from the spec is therefore a shallow embedding
built from the natural-language specification, constrained by the expected
values hard-coded in the unit tests of the repository
(account_key_test.go, tx_multiSig_test.go), which are authoritative where
they and the specification disagree.

Public keys are abstracted as natural numbers: the engine only ever
compares them for equality, so any type with decidable equality is a
faithful carrier.
-/

namespace KlaytnAccountKey

/-- Modelled from the spec: a recovered or stored public key. The engine
only compares keys for equality, so keys are abstracted as naturals. -/
abbrev PubKey := Nat

/-- Modelled from the spec: an account address (only compared for equality
by the Legacy rule). -/
abbrev Address := Nat

/-- Modelled from the spec: one entry of a WeightedMultiSig key list, a
(weight, public key) pair. -/
structure WeightedPublicKey where
  weight : Nat
  key : PubKey
deriving DecidableEq, Repr

/-- Modelled from the spec: the three role slots of a RoleBased key. -/
inductive RoleType where
  | roleTransaction
  | roleAccountUpdate
  | roleFeePayer
deriving DecidableEq, Repr

/-- Modelled from the spec: the closed six-variant AccountKey sum type.
RoleBased carries one sub-key per role in fixed role order. -/
inductive AccountKey where
  | nil
  | legacy
  | public (key : PubKey)
  | fail
  | weightedMultiSig (threshold : Nat) (keys : List WeightedPublicKey)
  | roleBased (txKey updateKey feePayerKey : AccountKey)
deriving DecidableEq, Repr

/-- Modelled from the spec: the stable numeric discriminant of each
variant, used as the leading token of the wire encoding. -/
def AccountKey.typeId : AccountKey → Nat
  | .nil => 0
  | .legacy => 1
  | .public _ => 2
  | .fail => 3
  | .weightedMultiSig _ _ => 4
  | .roleBased _ _ _ => 5

/-- Modelled from the spec (section 4.1): structural equality. Nil and
Legacy compare by variant alone; Public by key material; WeightedMultiSig
by threshold and element-wise key list; RoleBased recursively on the three
role slots; Fail compares unequal to everything, itself included. -/
def AccountKey.Equal : AccountKey → AccountKey → Bool
  | .nil, .nil => true
  | .legacy, .legacy => true
  | .public k1, .public k2 => k1 == k2
  | .fail, _ => false
  | .weightedMultiSig t1 ks1, .weightedMultiSig t2 ks2 => t1 == t2 && ks1 == ks2
  | .roleBased a1 u1 f1, .roleBased a2 u2 f2 =>
      Equal a1 a2 && Equal u1 u2 && Equal f1 f2
  | _, _ => false

/-- Modelled from the spec (section 4.2, WeightedMultiSig algorithm):
deduplicate the recovered keys, sum the weights of the stored keys whose
key occurs among them, count the distinct recovered keys that matched.
Pre-fork acceptance needs only matchedWeight at or above the threshold;
post-fork acceptance additionally demands that the supplied recovered-key
list is no longer than the stored key list and that no recovered key is a
stray. The returned validSigCount is the count of matched distinct keys
under both rules (the expected values of the repository unit test
TestAccountKeyWeightedMultiSig_Validate pin all fourteen acceptance
rows of this definition). -/
def validateWeightedMultiSig (threshold : Nat) (keys : List WeightedPublicKey)
    (recoveredKeys : List PubKey) (isForkActive : Bool) : Bool × Nat :=
  let uniq := recoveredKeys.dedup
  let matched := keys.filter (fun wk => decide (wk.key ∈ uniq))
  let weightedSum := (matched.map WeightedPublicKey.weight).sum
  let validSigCount := (uniq.filter (fun k => keys.any (fun wk => wk.key == k))).length
  let noStray := uniq.all (fun k => keys.any (fun wk => wk.key == k))
  if isForkActive then
    (decide (threshold ≤ weightedSum) &&
       (decide (recoveredKeys.length ≤ keys.length) && noStray),
     validSigCount)
  else
    (decide (threshold ≤ weightedSum), validSigCount)

/-- Modelled from the spec (section 4.2): the validation engine.
Nil is never directly validated (the surrounding ledger substitutes its
default scheme), so it rejects here; Legacy accepts exactly one recovered
key deriving the account address; Public accepts exactly one recovered key
equal to the stored key; Fail always rejects; WeightedMultiSig runs the
threshold algorithm; RoleBased dispatches on the requested role with the
same recovered keys and fork flag. The address derivation of the external
crypto layer is passed in as keyToAddr. -/
def AccountKey.Validate (k : AccountKey) (keyToAddr : PubKey → Address)
    (r : RoleType) (recoveredKeys : List PubKey) (fromAddr : Address)
    (isForkActive : Bool) : Bool × Nat :=
  match k with
  | .nil => (false, 0)
  | .legacy =>
      match recoveredKeys with
      | [rk] => if keyToAddr rk == fromAddr then (true, 1) else (false, 0)
      | _ => (false, 0)
  | .public storedKey =>
      match recoveredKeys with
      | [rk] => if rk == storedKey then (true, 1) else (false, 0)
      | _ => (false, 0)
  | .fail => (false, 0)
  | .weightedMultiSig t keys =>
      validateWeightedMultiSig t keys recoveredKeys isForkActive
  | .roleBased txKey updateKey feePayerKey =>
      match r with
      | .roleTransaction =>
          txKey.Validate keyToAddr r recoveredKeys fromAddr isForkActive
      | .roleAccountUpdate =>
          updateKey.Validate keyToAddr r recoveredKeys fromAddr isForkActive
      | .roleFeePayer =>
          feePayerKey.Validate keyToAddr r recoveredKeys fromAddr isForkActive

/-- The per-key validation gas constant of params/protocol_params.go. -/
def TxValidationGasPerKey : Nat := 15000

/-- The number of distinct recovered keys that match some stored key:
the validSigCount reported by the WeightedMultiSig engine. -/
def matchedUniqueCount (keys : List WeightedPublicKey) (rs : List PubKey) : Nat :=
  (rs.dedup.filter (fun k => keys.any (fun wk => wk.key == k))).length

/-- Modelled from the spec (section 4.3) and the repository unit test
TestAccountKeyWeightedMultiSig_SigValidationGas: post-fork the extra gas
is (validSigNum - 1) * TxValidationGasPerKey; pre-fork the function
replaces validSigNum by the number of stored keys, so every accepted
pre-fork validation of a WeightedMultiSig account is priced
(numKeys - 1) * TxValidationGasPerKey regardless of how many signatures
matched (the test expects gas for 10 stored keys on every pre-fork row
while the engine reports the matched count, and the function takes the
fork flag as an argument, so the substitution happens here). -/
def weightedMultiSigSigValidationGas (keys : List WeightedPublicKey)
    (validSigNum : Nat) (isForkActive : Bool) : Nat :=
  let gasNum := if isForkActive then validSigNum else keys.length
  (gasNum - 1) * TxValidationGasPerKey

/-- A six-key, weight-one WeightedMultiSig key list, as in the validation
unit test. -/
def sixUnitKeys : List WeightedPublicKey :=
  [⟨1, 0⟩, ⟨1, 1⟩, ⟨1, 2⟩, ⟨1, 3⟩, ⟨1, 4⟩, ⟨1, 5⟩]

/-- A ten-key, weight-one WeightedMultiSig key list, as in the gas unit
test. -/
def tenUnitKeys : List WeightedPublicKey :=
  [⟨1, 0⟩, ⟨1, 1⟩, ⟨1, 2⟩, ⟨1, 3⟩, ⟨1, 4⟩, ⟨1, 5⟩, ⟨1, 6⟩, ⟨1, 7⟩, ⟨1, 8⟩, ⟨1, 9⟩]

/-- Modelled from the spec (section 7): the typed error taxonomy of the
codec. -/
inductive CodecError where
  | unsupportedKeyType (tag : Nat)
  | decodeError
deriving DecidableEq, Repr

/-- Modelled from the spec (section 4.4): the payload of a
WeightedMultiSig encoding, the ordered (weight, key) records. -/
def encodeWeightedKeys : List WeightedPublicKey → List Nat
  | [] => []
  | wk :: rest => wk.weight :: wk.key :: encodeWeightedKeys rest

/-- Modelled from the spec (section 4.4): the binary wire encoding as a
token stream. One leading discriminant token, then the variant payload:
empty for Nil, Legacy and Fail; the key for Public; the threshold, the
record count and the (weight, key) records for WeightedMultiSig; the three
fully encoded role blobs in fixed role order for RoleBased. -/
def AccountKey.encodeRLP : AccountKey → List Nat
  | .nil => [0]
  | .legacy => [1]
  | .public k => [2, k]
  | .fail => [3]
  | .weightedMultiSig t ks => 4 :: t :: ks.length :: encodeWeightedKeys ks
  | .roleBased a u f => 5 :: (a.encodeRLP ++ u.encodeRLP ++ f.encodeRLP)

/-- Modelled from the spec (section 4.4): decode a declared number of
(weight, key) records, failing on truncation. -/
def decodeWeightedKeys :
    Nat → List Nat → Option (List WeightedPublicKey × List Nat)
  | 0, rest => some ([], rest)
  | n + 1, w :: k :: rest =>
      match decodeWeightedKeys n rest with
      | some (ks, r) => some (⟨w, k⟩ :: ks, r)
      | none => none
  | _ + 1, _ => none

/-- Modelled from the spec (section 4.4): the binary decoder, a recursive
descent on the token stream dispatching strictly on the leading
discriminant. An unrecognised discriminant is an unsupported-key-type
error; truncated payloads are decode errors. The fuel argument bounds the
RoleBased nesting depth and is instantiated from the buffer length by
decodeRLP, which a fed-back encoding always satisfies. -/
def decodeRLPAux :
    Nat → List Nat → Except CodecError (AccountKey × List Nat)
  | 0, _ => .error .decodeError
  | _ + 1, [] => .error .decodeError
  | _ + 1, 0 :: rest => .ok (.nil, rest)
  | _ + 1, 1 :: rest => .ok (.legacy, rest)
  | _ + 1, 2 :: k :: rest => .ok (.public k, rest)
  | _ + 1, [2] => .error .decodeError
  | _ + 1, 3 :: rest => .ok (.fail, rest)
  | _ + 1, 4 :: t :: n :: rest =>
      (match decodeWeightedKeys n rest with
       | some (ks, r) => .ok (.weightedMultiSig t ks, r)
       | none => .error .decodeError)
  | _ + 1, [4] => .error .decodeError
  | _ + 1, [4, _] => .error .decodeError
  | fuel + 1, 5 :: rest =>
      (match decodeRLPAux fuel rest with
       | .ok (a, r1) =>
           (match decodeRLPAux fuel r1 with
            | .ok (u, r2) =>
                (match decodeRLPAux fuel r2 with
                 | .ok (f, r3) => .ok (.roleBased a u f, r3)
                 | .error e => .error e)
            | .error e => .error e)
       | .error e => .error e)
  | _ + 1, (d + 6) :: _ => .error (.unsupportedKeyType (d + 6))

/-- Modelled from the spec (section 4.4): decode a whole buffer; leftover
tokens are an over-length decode error. -/
def decodeRLP (tokens : List Nat) : Except CodecError AccountKey :=
  match decodeRLPAux (tokens.length + 1) tokens with
  | .ok (k, []) => .ok k
  | .ok (_, _ :: _) => .error .decodeError
  | .error e => .error e

/-- RoleBased nesting depth of an AccountKey, the decoding fuel a value
needs. -/
def AccountKey.depth : AccountKey → Nat
  | .roleBased a u f => max a.depth (max u.depth f.depth) + 1
  | _ => 0

/-- Modelled from the spec (section 4.4): the JSON shape, an explicit
discriminant field plus a nested body of the same cardinality as the
binary payload. -/
inductive Json where
  | null
  | num (n : Nat)
  | multisigBody (threshold : Nat) (weightedKeys : List (Nat × Nat))
  | rolesBody (txJson updateJson feeJson : Json)
  | keyObj (keyType : Nat) (body : Json)
deriving DecidableEq, Repr

/-- Modelled from the spec (section 4.4): the JSON encoder. -/
def AccountKey.encodeJSON : AccountKey → Json
  | .nil => .keyObj 0 .null
  | .legacy => .keyObj 1 .null
  | .public k => .keyObj 2 (.num k)
  | .fail => .keyObj 3 .null
  | .weightedMultiSig t ks =>
      .keyObj 4 (.multisigBody t (ks.map (fun wk => (wk.weight, wk.key))))
  | .roleBased a u f =>
      .keyObj 5 (.rolesBody a.encodeJSON u.encodeJSON f.encodeJSON)

/-- Modelled from the spec (section 4.4): the JSON decoder, dispatching on
the discriminant field; unknown discriminants are unsupported-key-type
errors, malformed bodies are decode errors. -/
def decodeJSON : Json → Except CodecError AccountKey
  | .keyObj 0 .null => .ok .nil
  | .keyObj 1 .null => .ok .legacy
  | .keyObj 2 (.num k) => .ok (.public k)
  | .keyObj 3 .null => .ok .fail
  | .keyObj 4 (.multisigBody t ps) =>
      .ok (.weightedMultiSig t (ps.map (fun p => (⟨p.1, p.2⟩ : WeightedPublicKey))))
  | .keyObj 5 (.rolesBody a u f) =>
      (match decodeJSON a, decodeJSON u, decodeJSON f with
       | .ok ka, .ok ku, .ok kf => .ok (.roleBased ka ku kf)
       | .error e, _, _ => .error e
       | .ok _, .error e, _ => .error e
       | .ok _, .ok _, .error e => .error e)
  | .keyObj d _ =>
      if d ≤ 5 then .error .decodeError else .error (.unsupportedKeyType d)
  | _ => .error .decodeError

/-- True when no Fail variant occurs anywhere inside the key, the whole
key included. -/
def AccountKey.failFree : AccountKey → Bool
  | .fail => false
  | .roleBased a u f => failFree a && (failFree u && failFree f)
  | _ => true

/-- Modelled from the spec (section 7): the invalid-signer error surfaced
to the caller of the validation engine. -/
inductive TxError where
  | invalidSigSender
deriving DecidableEq, Repr

/-- Modelled from the spec (sections 4.2 and 7): the caller-facing wrapper
of the validation engine; a not-accepted validation surfaces as the typed
invalid-signer error, an accepted one returns the validSigCount for
pricing. -/
def ValidateSender (k : AccountKey) (keyToAddr : PubKey → Address)
    (r : RoleType) (recoveredKeys : List PubKey) (fromAddr : Address)
    (isForkActive : Bool) : Except TxError Nat :=
  let res := k.Validate keyToAddr r recoveredKeys fromAddr isForkActive
  if res.1 then .ok res.2 else .error .invalidSigSender

/-- Modelled from the spec (section 7): applying an action behind the
validation gate; on rejection the typed error is returned and the state is
not touched, so the action has no partial effects. -/
def applyAction {S : Type} (applyEffect : S → S) (st : S) (k : AccountKey)
    (keyToAddr : PubKey → Address) (r : RoleType)
    (recoveredKeys : List PubKey) (fromAddr : Address)
    (isForkActive : Bool) : Except TxError S :=
  match ValidateSender k keyToAddr r recoveredKeys fromAddr isForkActive with
  | .ok _ => .ok (applyEffect st)
  | .error e => .error e

section ValidationLemmas

/-- Filtering the stored keys against the deduplicated recovered list picks
the same entries as filtering against the raw list. -/
lemma filter_mem_dedup (keys : List WeightedPublicKey) (rs : List PubKey) :
    keys.filter (fun wk => decide (wk.key ∈ rs.dedup))
      = keys.filter (fun wk => decide (wk.key ∈ rs)) := by
  apply List.filter_congr
  intro wk _
  simp [List.mem_dedup]

/-- The stray-signature check succeeds exactly when every recovered key
matches some stored key. -/
lemma noStray_iff (keys : List WeightedPublicKey) (rs : List PubKey) :
    (rs.dedup.all (fun k => keys.any (fun wk => wk.key == k)) = true)
      ↔ ∀ k ∈ rs, ∃ wk ∈ keys, wk.key = k := by
  simp [List.all_eq_true, List.any_eq_true, List.mem_dedup]

/-- Characterisation of post-fork WeightedMultiSig acceptance. -/
lemma validateWMS_post_iff (t : Nat) (ks : List WeightedPublicKey)
    (rs : List PubKey) :
    (validateWeightedMultiSig t ks rs true).1 = true ↔
      (t ≤ ((ks.filter (fun wk => decide (wk.key ∈ rs))).map
              WeightedPublicKey.weight).sum
        ∧ rs.length ≤ ks.length
        ∧ ∀ k ∈ rs, ∃ wk ∈ ks, wk.key = k) := by
  have hf := filter_mem_dedup ks rs
  have hs := noStray_iff ks rs
  simp only [validateWeightedMultiSig, if_true, Bool.and_eq_true,
    decide_eq_true_eq] at *
  rw [hf]
  constructor
  · rintro ⟨h1, h2, h3⟩
    exact ⟨h1, h2, hs.mp h3⟩
  · rintro ⟨h1, h2, h3⟩
    exact ⟨h1, h2, hs.mpr h3⟩

/-- Characterisation of pre-fork WeightedMultiSig acceptance. -/
lemma validateWMS_pre_iff (t : Nat) (ks : List WeightedPublicKey)
    (rs : List PubKey) :
    (validateWeightedMultiSig t ks rs false).1 = true ↔
      t ≤ ((ks.filter (fun wk => decide (wk.key ∈ rs))).map
              WeightedPublicKey.weight).sum := by
  have hf := filter_mem_dedup ks rs
  simp only [validateWeightedMultiSig, if_false, decide_eq_true_eq]
  rw [hf]
  simp

/-- The reported validSigCount is the number of distinct matched recovered
keys, under both fork settings. -/
lemma validateWMS_count (t : Nat) (ks : List WeightedPublicKey)
    (rs : List PubKey) (b : Bool) :
    (validateWeightedMultiSig t ks rs b).2 = matchedUniqueCount ks rs := by
  cases b <;> simp [validateWeightedMultiSig, matchedUniqueCount]

/-- When every stored weight is one, the matched weight is the number of
matched stored keys. -/
lemma sum_map_weight_of_all_one (l : List WeightedPublicKey)
    (h : ∀ wk ∈ l, wk.weight = 1) :
    (l.map WeightedPublicKey.weight).sum = l.length := by
  induction l with
  | nil => simp
  | cons x xs ih =>
      have hx := h x (by simp)
      have hxs : ∀ wk ∈ xs, wk.weight = 1 := fun wk hm => h wk (by simp [hm])
      simp [hx, ih hxs, Nat.add_comm]

end ValidationLemmas

/-- C1: post-fork, a WeightedMultiSig policy accepts a recovered-key list
exactly when the weighted sum of stored keys matched by recovered keys
reaches the threshold, the recovered-key list is no longer than the stored
key list, and every recovered key matches some stored key (a stray
signature forces rejection). -/
theorem wms_validate_postfork_iff (t : Nat) (ks : List WeightedPublicKey)
    (rs : List PubKey) :
    (validateWeightedMultiSig t ks rs true).1 = true ↔
      (t ≤ ((ks.filter (fun wk => decide (wk.key ∈ rs))).map
              WeightedPublicKey.weight).sum
        ∧ rs.length ≤ ks.length
        ∧ ∀ k ∈ rs, ∃ wk ∈ ks, wk.key = k) :=
  validateWMS_post_iff t ks rs

/-- C1 witness: a concrete post-fork acceptance obtained through the
characterisation. -/
theorem wms_validate_postfork_iff_witness :
    (validateWeightedMultiSig 3 [⟨1, 0⟩, ⟨1, 1⟩, ⟨1, 2⟩, ⟨1, 3⟩, ⟨1, 4⟩, ⟨1, 5⟩]
        [0, 1, 2] true).1 = true :=
  (wms_validate_postfork_iff 3
      [⟨1, 0⟩, ⟨1, 1⟩, ⟨1, 2⟩, ⟨1, 3⟩, ⟨1, 4⟩, ⟨1, 5⟩] [0, 1, 2]).mpr
    (by decide)

/-- C2: pre-fork, a WeightedMultiSig policy accepts exactly when the
weighted sum of matched stored keys reaches the threshold; stray recovered
keys and an excess of recovered keys over stored keys never cause
rejection under this rule. -/
theorem wms_validate_prefork_iff (t : Nat) (ks : List WeightedPublicKey)
    (rs : List PubKey) :
    (validateWeightedMultiSig t ks rs false).1 = true ↔
      t ≤ ((ks.filter (fun wk => decide (wk.key ∈ rs))).map
              WeightedPublicKey.weight).sum :=
  validateWMS_pre_iff t ks rs

/-- C2 witness: pre-fork acceptance of six matched keys padded with two
stray keys and an over-long list, obtained through the characterisation. -/
theorem wms_validate_prefork_iff_witness :
    (validateWeightedMultiSig 3 [⟨1, 0⟩, ⟨1, 1⟩, ⟨1, 2⟩, ⟨1, 3⟩, ⟨1, 4⟩, ⟨1, 5⟩]
        [0, 1, 2, 3, 4, 5, 100, 101] false).1 = true :=
  (wms_validate_prefork_iff 3
      [⟨1, 0⟩, ⟨1, 1⟩, ⟨1, 2⟩, ⟨1, 3⟩, ⟨1, 4⟩, ⟨1, 5⟩]
      [0, 1, 2, 3, 4, 5, 100, 101]).mpr (by decide)

/-- C4: Equal on a Fail key is false against every comparand, the Fail key
itself included; Equal on Nil and on Legacy holds exactly when the other
operand is the same variant. -/
theorem equal_fail_nil_legacy :
    (∀ b : AccountKey, AccountKey.Equal .fail b = false)
      ∧ (∀ b : AccountKey, (AccountKey.Equal .nil b = true ↔ b = .nil))
      ∧ (∀ b : AccountKey, (AccountKey.Equal .legacy b = true ↔ b = .legacy)) := by
  refine ⟨fun b => ?_, fun b => ?_, fun b => ?_⟩ <;>
    cases b <;> simp [AccountKey.Equal]

/-- C4 witness: the deliberate reflexivity failure of Fail at a concrete
comparison, derived from the theorem. -/
theorem equal_fail_nil_legacy_witness :
    AccountKey.Equal .fail .fail = false ∧ AccountKey.Equal .nil .nil = true :=
  ⟨equal_fail_nil_legacy.1 .fail, (equal_fail_nil_legacy.2.1 .nil).mpr rfl⟩

/-- C7: for a six-key weight-one threshold-three WeightedMultiSig policy,
a recovered-key list matching only one or only two stored keys is rejected
under the pre-fork rule and under the post-fork rule. -/
theorem wms_below_threshold_rejected (ks : List WeightedPublicKey)
    (rs : List PubKey)
    (_hlen : ks.length = 6) (hw : ∀ wk ∈ ks, wk.weight = 1)
    (hm : (ks.filter (fun wk => decide (wk.key ∈ rs))).length = 1
            ∨ (ks.filter (fun wk => decide (wk.key ∈ rs))).length = 2) :
    (validateWeightedMultiSig 3 ks rs false).1 = false
      ∧ (validateWeightedMultiSig 3 ks rs true).1 = false := by
  have hw2 : ∀ wk ∈ ks.filter (fun wk => decide (wk.key ∈ rs)), wk.weight = 1 :=
    fun wk hmem => hw wk (List.mem_of_mem_filter hmem)
  have hsum := sum_map_weight_of_all_one _ hw2
  have hlt : ¬ (3 ≤ ((ks.filter (fun wk => decide (wk.key ∈ rs))).map
      WeightedPublicKey.weight).sum) := by
    rw [hsum]
    rcases hm with h | h <;> omega
  constructor
  · rw [Bool.eq_false_iff]
    intro hacc
    exact hlt ((validateWMS_pre_iff 3 ks rs).mp hacc)
  · rw [Bool.eq_false_iff]
    intro hacc
    exact hlt ((validateWMS_post_iff 3 ks rs).mp hacc).1

/-- C7 witness: two matched keys out of six are rejected under both rules. -/
theorem wms_below_threshold_rejected_witness :
    (validateWeightedMultiSig 3 [⟨1, 0⟩, ⟨1, 1⟩, ⟨1, 2⟩, ⟨1, 3⟩, ⟨1, 4⟩, ⟨1, 5⟩]
        [0, 1] false).1 = false
      ∧ (validateWeightedMultiSig 3 [⟨1, 0⟩, ⟨1, 1⟩, ⟨1, 2⟩, ⟨1, 3⟩, ⟨1, 4⟩, ⟨1, 5⟩]
          [0, 1] true).1 = false :=
  wms_below_threshold_rejected
    [⟨1, 0⟩, ⟨1, 1⟩, ⟨1, 2⟩, ⟨1, 3⟩, ⟨1, 4⟩, ⟨1, 5⟩] [0, 1]
    (by decide) (by decide) (by decide)

/-- C8: the Public and Legacy variants reject every recovered-key list
whose length is not exactly one, whatever the keys are and under both fork
settings; and their acceptance holds exactly on a singleton list whose key
matches — the stored key for Public, a key deriving the account address
for Legacy — so a singleton non-matching key is rejected too. -/
theorem single_key_variant_needs_one_key (keyToAddr : PubKey → Address)
    (storedKey : PubKey) (fromAddr : Address) (r : RoleType) (b : Bool)
    (rs : List PubKey) :
    (rs.length ≠ 1 →
        (AccountKey.Validate (.public storedKey) keyToAddr r rs fromAddr b).1
            = false
          ∧ (AccountKey.Validate .legacy keyToAddr r rs fromAddr b).1 = false)
      ∧ ((AccountKey.Validate (.public storedKey) keyToAddr r rs fromAddr b).1
            = true ↔ rs = [storedKey])
      ∧ ((AccountKey.Validate .legacy keyToAddr r rs fromAddr b).1 = true ↔
          ∃ rk, rs = [rk] ∧ keyToAddr rk = fromAddr) := by
  match rs with
  | [] =>
      refine ⟨fun _ => ⟨rfl, rfl⟩, ?_, ?_⟩ <;> simp [AccountKey.Validate]
  | [rk] =>
      refine ⟨fun h => absurd rfl h, ?_, ?_⟩
      · by_cases hk : rk = storedKey <;> simp [AccountKey.Validate, hk]
      · by_cases ha : keyToAddr rk = fromAddr <;>
          simp [AccountKey.Validate, ha]
  | rk1 :: rk2 :: rest =>
      refine ⟨fun _ => ⟨rfl, rfl⟩, ?_, ?_⟩ <;> simp [AccountKey.Validate]

/-- C8 witness: two recovered keys, one of which matches the stored key,
are rejected by Public and Legacy; a singleton non-matching key is
rejected by Public; the singleton matching key is accepted. -/
theorem single_key_variant_needs_one_key_witness :
    (AccountKey.Validate (.public 7) id .roleTransaction [7, 8] 7 true).1 = false
      ∧ (AccountKey.Validate .legacy id .roleTransaction [7, 8] 7 true).1 = false
      ∧ (AccountKey.Validate (.public 7) id .roleTransaction [8] 7 true).1 ≠ true
      ∧ (AccountKey.Validate (.public 7) id .roleTransaction [7] 7 true).1 = true :=
  ⟨((single_key_variant_needs_one_key id 7 7 .roleTransaction true [7, 8]).1
      (by decide)).1,
   ((single_key_variant_needs_one_key id 7 7 .roleTransaction true [7, 8]).1
      (by decide)).2,
   fun h => absurd
     ((single_key_variant_needs_one_key id 7 7 .roleTransaction true [8]).2.1.mp h)
     (by decide),
   (single_key_variant_needs_one_key id 7 7 .roleTransaction true [7]).2.1.mpr
     rfl⟩

/-- C5 counterexample: on the ten-key threshold-three policy, three
matched signatures are accepted pre-fork with validSigCount three, yet the
gas charged pre-fork is not (validSigCount - 1) * TxValidationGasPerKey:
the pre-fork price is (numKeys - 1) * TxValidationGasPerKey, as the
before-fork column of the repository gas unit test demands. -/
theorem gas_formula_prefork_counterexample :
    (validateWeightedMultiSig 3 tenUnitKeys [0, 1, 2] false).1 = true
      ∧ (validateWeightedMultiSig 3 tenUnitKeys [0, 1, 2] false).2 = 3
      ∧ weightedMultiSigSigValidationGas tenUnitKeys
          (validateWeightedMultiSig 3 tenUnitKeys [0, 1, 2] false).2 false
          ≠ (3 - 1) * TxValidationGasPerKey := by
  refine ⟨by decide, by decide, by decide⟩

/-- C5 amended: for every accepted post-fork validation the gas equals
(validSigCount - 1) * TxValidationGasPerKey with validSigCount the number
of distinct matched recovered keys; the pre-fork gas of a WeightedMultiSig
policy is (numKeys - 1) * TxValidationGasPerKey instead. -/
theorem gas_formula_postfork (t : Nat) (ks : List WeightedPublicKey)
    (rs : List PubKey)
    (_hacc : (validateWeightedMultiSig t ks rs true).1 = true) :
    weightedMultiSigSigValidationGas ks
        (validateWeightedMultiSig t ks rs true).2 true
        = (matchedUniqueCount ks rs - 1) * TxValidationGasPerKey
      ∧ weightedMultiSigSigValidationGas ks
          (validateWeightedMultiSig t ks rs false).2 false
          = (ks.length - 1) * TxValidationGasPerKey := by
  constructor
  · rw [validateWMS_count]
    rfl
  · rfl

/-- C5 witness: the ten-key threshold-three policy with three matched
keys, priced through the amended formula. -/
theorem gas_formula_postfork_witness :
    weightedMultiSigSigValidationGas tenUnitKeys
        (validateWeightedMultiSig 3 tenUnitKeys [0, 1, 2] true).2 true
        = (matchedUniqueCount tenUnitKeys [0, 1, 2] - 1) * TxValidationGasPerKey
      ∧ weightedMultiSigSigValidationGas tenUnitKeys
          (validateWeightedMultiSig 3 tenUnitKeys [0, 1, 2] false).2 false
          = (tenUnitKeys.length - 1) * TxValidationGasPerKey :=
  gas_formula_postfork 3 tenUnitKeys [0, 1, 2] (by decide)

/-- C6 counterexample: six matched keys followed by two duplicated matched
keys are rejected post-fork (the raw list is longer than the stored key
list), while the list of distinct keys is accepted, so duplication does
change the accepted result. -/
theorem dedup_acceptance_counterexample :
    (validateWeightedMultiSig 3 sixUnitKeys [0, 1, 2, 3, 4, 5, 0, 1] true).1 = false
      ∧ (validateWeightedMultiSig 3 sixUnitKeys
          ([0, 1, 2, 3, 4, 5, 0, 1].dedup) true).1 = true := by
  refine ⟨by decide, by decide⟩

/-- C6 amended: duplicated recovered keys never change the reported
validSigCount nor the priced gas; they never change the accepted result
pre-fork, and do not change it post-fork as long as the duplicated list is
still no longer than the stored key list. -/
theorem dedup_validation (t : Nat) (ks : List WeightedPublicKey)
    (rs : List PubKey) :
    (∀ b, (validateWeightedMultiSig t ks rs b).2
        = (validateWeightedMultiSig t ks rs.dedup b).2)
      ∧ (validateWeightedMultiSig t ks rs false).1
          = (validateWeightedMultiSig t ks rs.dedup false).1
      ∧ (rs.length ≤ ks.length →
          (validateWeightedMultiSig t ks rs true).1
            = (validateWeightedMultiSig t ks rs.dedup true).1)
      ∧ (∀ b, weightedMultiSigSigValidationGas ks
            (validateWeightedMultiSig t ks rs b).2 b
          = weightedMultiSigSigValidationGas ks
              (validateWeightedMultiSig t ks rs.dedup b).2 b) := by
  have hcount : ∀ b, (validateWeightedMultiSig t ks rs b).2
      = (validateWeightedMultiSig t ks rs.dedup b).2 := by
    intro b
    rw [validateWMS_count, validateWMS_count]
    unfold matchedUniqueCount
    rw [List.dedup_idem]
  refine ⟨hcount, ?_, ?_, fun b => by rw [hcount b]⟩
  · have h1 := validateWMS_pre_iff t ks rs
    have h2 := validateWMS_pre_iff t ks rs.dedup
    have hmem : ks.filter (fun wk => decide (wk.key ∈ rs.dedup))
        = ks.filter (fun wk => decide (wk.key ∈ rs)) := filter_mem_dedup ks rs
    rw [hmem] at h2
    rw [Bool.eq_iff_iff]
    simp only [h1, h2]
  · intro hlen
    have h1 := validateWMS_post_iff t ks rs
    have h2 := validateWMS_post_iff t ks rs.dedup
    have hmem : ks.filter (fun wk => decide (wk.key ∈ rs.dedup))
        = ks.filter (fun wk => decide (wk.key ∈ rs)) := filter_mem_dedup ks rs
    have hdlen : rs.dedup.length ≤ ks.length :=
      le_trans (List.Sublist.length_le (List.dedup_sublist rs)) hlen
    rw [hmem] at h2
    rw [Bool.eq_iff_iff]
    rw [h1, h2]
    constructor
    · rintro ⟨hw, -, hall⟩
      exact ⟨hw, hdlen, fun k hk => hall k (List.mem_dedup.mp hk)⟩
    · rintro ⟨hw, -, hall⟩
      exact ⟨hw, hlen, fun k hk => hall k (List.mem_dedup.mpr hk)⟩

/-- C6 witness: three unique matching keys plus repeats of the same three
keep validSigCount three and the post-fork accepted result, through the
amended theorem. -/
theorem dedup_validation_witness :
    (validateWeightedMultiSig 3 tenUnitKeys [0, 1, 2, 0, 1, 2] true).2
        = (validateWeightedMultiSig 3 tenUnitKeys
            ([0, 1, 2, 0, 1, 2].dedup) true).2
      ∧ (validateWeightedMultiSig 3 tenUnitKeys [0, 1, 2, 0, 1, 2] true).1
          = (validateWeightedMultiSig 3 tenUnitKeys
              ([0, 1, 2, 0, 1, 2].dedup) true).1 :=
  ⟨(dedup_validation 3 tenUnitKeys [0, 1, 2, 0, 1, 2]).1 true,
   (dedup_validation 3 tenUnitKeys [0, 1, 2, 0, 1, 2]).2.2.1 (by decide)⟩

/-- C10 counterexample: a pre-fork accepted validation whose returned
validSigCount is the matched count three, not the stored key count ten. -/
theorem prefork_count_counterexample :
    (validateWeightedMultiSig 3 tenUnitKeys [0, 1, 2, 3] false).1 = true
      ∧ (validateWeightedMultiSig 3 tenUnitKeys [0, 1, 2, 3] false).2
          ≠ tenUnitKeys.length := by
  refine ⟨by decide, by decide⟩

/-- C10 amended: Validate returns the matched distinct-key count under
both fork settings; the pre-fork gas nevertheless equals
(numKeys - 1) * TxValidationGasPerKey independent of the matched count,
because SigValidationGas substitutes the stored key count for validSigNum
when the fork is not active. -/
theorem prefork_gas_uses_numkeys (t : Nat) (ks : List WeightedPublicKey)
    (rs : List PubKey)
    (_hacc : (validateWeightedMultiSig t ks rs false).1 = true) :
    weightedMultiSigSigValidationGas ks
        (validateWeightedMultiSig t ks rs false).2 false
        = (ks.length - 1) * TxValidationGasPerKey
      ∧ (validateWeightedMultiSig t ks rs false).2
          = matchedUniqueCount ks rs :=
  ⟨rfl, validateWMS_count t ks rs false⟩

/-- C10 witness: four matched keys out of ten pre-fork are returned as
count four yet priced as nine extra keys. -/
theorem prefork_gas_uses_numkeys_witness :
    weightedMultiSigSigValidationGas tenUnitKeys
        (validateWeightedMultiSig 3 tenUnitKeys [0, 1, 2, 3] false).2 false
        = (tenUnitKeys.length - 1) * TxValidationGasPerKey
      ∧ (validateWeightedMultiSig 3 tenUnitKeys [0, 1, 2, 3] false).2
          = matchedUniqueCount tenUnitKeys [0, 1, 2, 3] :=
  prefork_gas_uses_numkeys 3 tenUnitKeys [0, 1, 2, 3] (by decide)

section CodecLemmas

/-- Decoding the declared number of encoded (weight, key) records returns
them and the untouched remainder. -/
lemma decodeWeightedKeys_encode (ks : List WeightedPublicKey)
    (rest : List Nat) :
    decodeWeightedKeys ks.length (encodeWeightedKeys ks ++ rest)
      = some (ks, rest) := by
  induction ks generalizing rest with
  | nil => simp [encodeWeightedKeys, decodeWeightedKeys]
  | cons wk tail ih =>
      simp [encodeWeightedKeys, decodeWeightedKeys, ih]

/-- The nesting depth of a key is below the length of its encoding. -/
lemma depth_lt_encodeRLP_length (v : AccountKey) :
    v.depth < v.encodeRLP.length := by
  induction v with
  | roleBased a u f iha ihu ihf =>
      simp only [AccountKey.depth, AccountKey.encodeRLP, List.length_cons,
        List.length_append]
      refine Nat.succ_lt_succ ?_
      refine Nat.max_lt.mpr ⟨?_, Nat.max_lt.mpr ⟨?_, ?_⟩⟩ <;> omega
  | nil => simp [AccountKey.depth, AccountKey.encodeRLP]
  | legacy => simp [AccountKey.depth, AccountKey.encodeRLP]
  | public k => simp [AccountKey.depth, AccountKey.encodeRLP]
  | fail => simp [AccountKey.depth, AccountKey.encodeRLP]
  | weightedMultiSig t ks => simp [AccountKey.depth, AccountKey.encodeRLP]

/-- Fed its own encoding followed by anything, the binary decoder returns
the encoded key and the remainder, given fuel above the nesting depth. -/
lemma decodeRLPAux_encodeRLP (v : AccountKey) :
    ∀ (fuel : Nat) (rest : List Nat), v.depth < fuel →
      decodeRLPAux fuel (v.encodeRLP ++ rest) = .ok (v, rest) := by
  induction v with
  | nil =>
      intro fuel rest h
      match fuel with
      | f + 1 => simp [AccountKey.encodeRLP, decodeRLPAux]
  | legacy =>
      intro fuel rest h
      match fuel with
      | f + 1 => simp [AccountKey.encodeRLP, decodeRLPAux]
  | public k =>
      intro fuel rest h
      match fuel with
      | f + 1 => simp [AccountKey.encodeRLP, decodeRLPAux]
  | fail =>
      intro fuel rest h
      match fuel with
      | f + 1 => simp [AccountKey.encodeRLP, decodeRLPAux]
  | weightedMultiSig t ks =>
      intro fuel rest h
      match fuel with
      | f + 1 =>
          simp [AccountKey.encodeRLP, decodeRLPAux, decodeWeightedKeys_encode]
  | roleBased a u f iha ihu ihf =>
      intro fuel rest h
      match fuel with
      | m + 1 =>
          have hm : max a.depth (max u.depth f.depth) < m :=
            Nat.lt_of_succ_lt_succ h
          obtain ⟨ha, hrest⟩ := Nat.max_lt.mp hm
          obtain ⟨hu, hf⟩ := Nat.max_lt.mp hrest
          show decodeRLPAux (m + 1)
              ((5 :: (a.encodeRLP ++ u.encodeRLP ++ f.encodeRLP)) ++ rest)
              = .ok (.roleBased a u f, rest)
          rw [List.cons_append, List.append_assoc, List.append_assoc]
          simp only [decodeRLPAux]
          rw [iha m _ ha]
          simp only [ihu m _ hu, ihf m _ hf]

/-- Binary round trip: decoding the encoding of any key returns that key
structurally. -/
lemma decodeRLP_encodeRLP (v : AccountKey) :
    decodeRLP v.encodeRLP = .ok v := by
  have h := decodeRLPAux_encodeRLP v (v.encodeRLP.length + 1) []
    (Nat.lt_succ_of_lt (depth_lt_encodeRLP_length v))
  rw [List.append_nil] at h
  simp [decodeRLP, h]

/-- Mapping a weighted key list to JSON pairs and back is the identity. -/
lemma map_pair_roundtrip (ks : List WeightedPublicKey) :
    (ks.map (fun wk => (wk.weight, wk.key))).map
        (fun p => (⟨p.1, p.2⟩ : WeightedPublicKey)) = ks := by
  induction ks with
  | nil => simp
  | cons wk tail ih =>
      simp only [List.map_cons]
      rw [ih]

/-- JSON round trip: decoding the encoding of any key returns that key
structurally. -/
lemma decodeJSON_encodeJSON (v : AccountKey) :
    decodeJSON v.encodeJSON = .ok v := by
  induction v with
  | roleBased a u f iha ihu ihf =>
      simp [AccountKey.encodeJSON, decodeJSON, iha, ihu, ihf]
  | weightedMultiSig t ks =>
      simp only [AccountKey.encodeJSON, decodeJSON]
      rw [map_pair_roundtrip]
  | nil => simp [AccountKey.encodeJSON, decodeJSON]
  | legacy => simp [AccountKey.encodeJSON, decodeJSON]
  | public k => simp [AccountKey.encodeJSON, decodeJSON]
  | fail => simp [AccountKey.encodeJSON, decodeJSON]

/-- Equal is reflexive on keys with no Fail component. -/
lemma equal_refl_of_failFree (v : AccountKey) (h : v.failFree = true) :
    v.Equal v = true := by
  induction v with
  | roleBased a u f iha ihu ihf =>
      simp only [AccountKey.failFree, Bool.and_eq_true] at h
      simp [AccountKey.Equal, iha h.1, ihu h.2.1, ihf h.2.2]
  | nil => rfl
  | legacy => rfl
  | public k => simp [AccountKey.Equal]
  | fail => simp [AccountKey.failFree] at h
  | weightedMultiSig t ks => simp [AccountKey.Equal]

/-- Equal fails on itself for any key containing a Fail component. -/
lemma equal_self_false_of_not_failFree (v : AccountKey)
    (h : v.failFree = false) : v.Equal v = false := by
  induction v with
  | roleBased a u f iha ihu ihf =>
      simp only [AccountKey.failFree, Bool.and_eq_false_iff] at h
      rcases h with h | h | h
      · simp [AccountKey.Equal, iha h]
      · simp [AccountKey.Equal, ihu h]
      · simp [AccountKey.Equal, ihf h]
  | nil => simp [AccountKey.failFree] at h
  | legacy => simp [AccountKey.failFree] at h
  | public k => simp [AccountKey.failFree] at h
  | fail => rfl
  | weightedMultiSig t ks => simp [AccountKey.failFree] at h

end CodecLemmas

/-- C3 counterexample: a RoleBased key holding a Fail role slot decodes
from its own binary and JSON encodings to the structurally identical
value, yet Equal between the original and the decoded value is false,
because Equal recurses into the Fail slot; so the round-trip Equal
guarantee does not hold for every RoleBased value. -/
theorem codec_roundtrip_counterexample :
    decodeRLP ((AccountKey.roleBased .fail (.public 1) (.public 2)).encodeRLP)
        = .ok (AccountKey.roleBased .fail (.public 1) (.public 2))
      ∧ decodeJSON ((AccountKey.roleBased .fail (.public 1) (.public 2)).encodeJSON)
          = .ok (AccountKey.roleBased .fail (.public 1) (.public 2))
      ∧ AccountKey.Equal (AccountKey.roleBased .fail (.public 1) (.public 2))
          (AccountKey.roleBased .fail (.public 1) (.public 2)) = false := by
  refine ⟨by rfl, by rfl, by decide⟩

/-- C3 amended: every AccountKey decodes from its own binary and JSON
encodings to the structurally identical value; Equal between the original
and the decoded value holds exactly when no Fail variant occurs inside the
key, so it holds for Nil, Legacy, Public, WeightedMultiSig, and exactly
those RoleBased values carrying no Fail role slot, while for Fail itself
(and any key embedding it) the decoded value is a structurally valid,
re-encodable value that Equal nevertheless rejects. -/
theorem codec_roundtrip (v : AccountKey) :
    decodeRLP v.encodeRLP = .ok v
      ∧ decodeJSON v.encodeJSON = .ok v
      ∧ (v.failFree = true → v.Equal v = true)
      ∧ (v.failFree = false → v.Equal v = false) :=
  ⟨decodeRLP_encodeRLP v, decodeJSON_encodeJSON v,
   equal_refl_of_failFree v, equal_self_false_of_not_failFree v⟩

/-- C3 witness: the Fail key round-trips structurally while Equal rejects
it, and a WeightedMultiSig key round-trips with Equal accepting it. -/
theorem codec_roundtrip_witness :
    (decodeRLP (AccountKey.fail.encodeRLP) = .ok .fail
        ∧ AccountKey.Equal .fail .fail = false)
      ∧ (decodeJSON ((AccountKey.weightedMultiSig 2 [⟨1, 3⟩, ⟨2, 4⟩]).encodeJSON)
            = .ok (.weightedMultiSig 2 [⟨1, 3⟩, ⟨2, 4⟩])
          ∧ AccountKey.Equal (.weightedMultiSig 2 [⟨1, 3⟩, ⟨2, 4⟩])
              (.weightedMultiSig 2 [⟨1, 3⟩, ⟨2, 4⟩]) = true) :=
  ⟨⟨(codec_roundtrip .fail).1, (codec_roundtrip .fail).2.2.2 (by decide)⟩,
   ⟨(codec_roundtrip (.weightedMultiSig 2 [⟨1, 3⟩, ⟨2, 4⟩])).2.1,
    (codec_roundtrip (.weightedMultiSig 2 [⟨1, 3⟩, ⟨2, 4⟩])).2.2.1 (by decide)⟩⟩

/-- C9: a not-accepted validation always surfaces to the caller as the
typed invalid-signer error and the action is not applied at all; in
particular, post-fork, a WeightedMultiSig action carrying more recovered
keys than stored keys, or carrying a recovered key matching no stored key,
fails with the invalid-signer error. -/
theorem invalid_signer_propagation {S : Type} (applyEffect : S → S) (st : S)
    (k : AccountKey) (keyToAddr : PubKey → Address) (r : RoleType)
    (rs : List PubKey) (fromAddr : Address) (b : Bool) (t : Nat)
    (ks : List WeightedPublicKey) :
    ((k.Validate keyToAddr r rs fromAddr b).1 = false →
        ValidateSender k keyToAddr r rs fromAddr b
            = .error .invalidSigSender
          ∧ applyAction applyEffect st k keyToAddr r rs fromAddr b
              = .error .invalidSigSender)
      ∧ (ks.length < rs.length →
          ValidateSender (.weightedMultiSig t ks) keyToAddr r rs fromAddr true
            = .error .invalidSigSender)
      ∧ ((∃ sk ∈ rs, ∀ wk ∈ ks, wk.key ≠ sk) →
          ValidateSender (.weightedMultiSig t ks) keyToAddr r rs fromAddr true
            = .error .invalidSigSender) := by
  have hwmsv : (AccountKey.weightedMultiSig t ks).Validate keyToAddr r rs
      fromAddr true = validateWeightedMultiSig t ks rs true := rfl
  refine ⟨fun h => ?_, fun h => ?_, fun h => ?_⟩
  · constructor
    · simp [ValidateSender, h]
    · simp [applyAction, ValidateSender, h]
  · have hrej : (validateWeightedMultiSig t ks rs true).1 = false := by
      rw [Bool.eq_false_iff]
      intro hacc
      have := ((validateWMS_post_iff t ks rs).mp hacc).2.1
      omega
    simp [ValidateSender, hwmsv, hrej]
  · have hrej : (validateWeightedMultiSig t ks rs true).1 = false := by
      rw [Bool.eq_false_iff]
      intro hacc
      obtain ⟨sk, hsk, hnone⟩ := h
      obtain ⟨wk, hwk, hkey⟩ :=
        ((validateWMS_post_iff t ks rs).mp hacc).2.2 sk hsk
      exact hnone wk hwk hkey
    simp [ValidateSender, hwmsv, hrej]

/-- C9 witness: post-fork, eight recovered keys against the six-key policy
and a stray key among four recovered keys both surface the invalid-signer
error, through the propagation theorem. -/
theorem invalid_signer_propagation_witness :
    ValidateSender (.weightedMultiSig 3 sixUnitKeys) id .roleTransaction
        [0, 1, 2, 3, 4, 5, 100, 101] 0 true = .error .invalidSigSender
      ∧ ValidateSender (.weightedMultiSig 3 sixUnitKeys) id .roleTransaction
          [0, 1, 2, 100] 0 true = .error .invalidSigSender :=
  ⟨(invalid_signer_propagation (id : Nat → Nat) 0 .nil id .roleTransaction
      [0, 1, 2, 3, 4, 5, 100, 101] 0 true 3 sixUnitKeys).2.1 (by decide),
   (invalid_signer_propagation (id : Nat → Nat) 0 .nil id .roleTransaction
      [0, 1, 2, 100] 0 true 3 sixUnitKeys).2.2
     ⟨100, by decide, by decide⟩⟩

end KlaytnAccountKey
